import Mathlib

/-
Verification development for the travel-butler repository.

The definitions below shallowly embed the TypeScript source:
  * `apps/mobile/lib/api.ts` (the Request Gateway `request` / `getAuthHeaders`),
  * the Supabase schema CHECK constraints on `plans.status` / `plan_steps.status`,
  * the chat screen (`handleSend`, `fetchLatestItinerary`, `markItineraryCompleted`),
  * the dashboard `handleTripPress` projection,
  * `components/chat/ExecutionAnimation.tsx` (`runSequence`),
  * `components/chat/Composer.tsx` (`handleSend`).
Machine numbers that the source stores as JS numbers/Postgres floats are
modelled as `Rat` (exact arithmetic stands in for the float column); HTTP
statuses are `Nat`.
-/

/-- A parsed JSON body.  The only field the gateway code reads is `detail`
(`err.detail`); `none` models the field being absent (`undefined`). -/
structure JsonBody where
  detail : Option String
deriving DecidableEq, Repr

/-- An HTTP response as observed by `fetch` in `lib/api.ts`: its status code,
its body parsed as JSON (`none` when `res.json()` rejects), and `res.statusText`. -/
structure HttpResponse where
  status : Nat
  body : Option JsonBody
  statusText : String
deriving DecidableEq, Repr

/-- Embeds `res.ok` of the Fetch API: status in the range 200..299. -/
def respOk (r : HttpResponse) : Bool :=
  200 ≤ r.status && r.status < 300

/-- Embeds `const err = await res.json().catch(() => ({ detail: res.statusText }))`. -/
def errBody (r : HttpResponse) : JsonBody :=
  match r.body with
  | some b => b
  | none => { detail := some r.statusText }

/-- Embeds `err.detail || "HTTP " + res.status` — the `||` falls through on a missing
or empty `detail`. -/
def errMessage (r : HttpResponse) : String :=
  match (errBody r).detail with
  | some d => if d = "" then "HTTP " ++ toString r.status else d
  | none => "HTTP " ++ toString r.status

/-- The error thrown by `request` on a non-2xx final response:
`new Error(err.detail || ...)` with `.status` and `.response` attached. -/
structure GatewayError where
  message : String
  status : Nat
  response : JsonBody
deriving DecidableEq, Repr

def mkGatewayError (r : HttpResponse) : GatewayError :=
  { message := errMessage r, status := r.status, response := errBody r }

/-- Embeds `request` from `lib/api.ts`.  The backend is modelled as `fetch`, giving the
response to the k-th attempt; `attempt` counts the attempts already made.
The source guard `res.status === 503 && retries > 0` is realized by the `Nat`
pattern on `retries`: with `retries = 0` a 503 falls through to the `!res.ok`
branch exactly as in the source. -/
def request (fetch : Nat → HttpResponse) (attempt : Nat) :
    Nat → Except GatewayError (Option JsonBody)
  | retries + 1 =>
    let res := fetch attempt
    -- Retry on 503 (server reloading)
    if res.status = 503 then
      request fetch (attempt + 1) retries
    else if !(respOk res) then
      Except.error (mkGatewayError res)
    else
      Except.ok res.body
  | 0 =>
    let res := fetch attempt
    if !(respOk res) then
      Except.error (mkGatewayError res)
    else
      Except.ok res.body

/-- Number of times `request` calls `fetch`, starting at `attempt` with the
given retry budget. -/
def requestAttempts (fetch : Nat → HttpResponse) (attempt : Nat) : Nat → Nat
  | retries + 1 =>
    if (fetch attempt).status = 503 then 1 + requestAttempts fetch (attempt + 1) retries
    else 1
  | 0 => 1

/-- Index of the attempt whose response `request` settles on. -/
def finalIdx (fetch : Nat → HttpResponse) (attempt : Nat) : Nat → Nat
  | retries + 1 =>
    if (fetch attempt).status = 503 then finalIdx fetch (attempt + 1) retries
    else attempt
  | 0 => attempt

/-- The source default `retries = 2` of `request`. -/
def defaultRetries : Nat := 2

/-- The wrappers `api.get` / `api.post` / … all call `request` with the default retry budget. -/
def apiRequest (fetch : Nat → HttpResponse) : Except GatewayError (Option JsonBody) :=
  request fetch 0 defaultRetries

/-- The session object returned by `supabase.auth.getSession()`; the gateway
only reads `session?.access_token`. -/
structure Session where
  access_token : Option String
deriving DecidableEq, Repr

/-- Embeds `getAuthHeaders` from `lib/api.ts`: always `Content-Type`, plus an
`Authorization: Bearer` header when `session?.access_token` is truthy
(present and non-empty). -/
def getAuthHeaders (session : Option Session) : List (String × String) :=
  let headers : List (String × String) := [("Content-Type", "application/json")]
  match session with
  | none => headers
  | some s =>
    match s.access_token with
    | none => headers
    | some tok =>
      if tok = "" then headers
      else headers ++ [("Authorization", "Bearer " ++ tok)]

/-- Truthiness of `session?.access_token`. -/
def hasCredential (session : Option Session) : Bool :=
  match session with
  | none => false
  | some s =>
    match s.access_token with
    | none => false
    | some tok => !(tok = "")

/-- The body of `request` first awaits `getAuthHeaders()` and then issues the
fetch unconditionally: the computed headers never gate the call. -/
def requestWithAuth (session : Option Session) (fetch : Nat → HttpResponse) :
    Except GatewayError (Option JsonBody) :=
  let _headers := getAuthHeaders session
  request fetch 0 defaultRetries

-- ── Gateway lemmas ──

lemma request_eq_final (fetch : Nat → HttpResponse) :
    ∀ retries attempt,
      request fetch attempt retries =
        (let r := fetch (finalIdx fetch attempt retries)
         if !(respOk r) then Except.error (mkGatewayError r) else Except.ok r.body) := by
  intro retries
  induction retries with
  | zero =>
    intro attempt
    simp only [request, finalIdx]
  | succ n ih =>
    intro attempt
    simp only [request, finalIdx]
    by_cases h : (fetch attempt).status = 503
    · simp only [h, if_true]
      exact ih (attempt + 1)
    · simp [h]

lemma finalIdx_le (fetch : Nat → HttpResponse) :
    ∀ retries attempt, finalIdx fetch attempt retries ≤ attempt + retries := by
  intro retries
  induction retries with
  | zero => intro attempt; simp [finalIdx]
  | succ n ih =>
    intro attempt
    simp only [finalIdx]
    by_cases h : (fetch attempt).status = 503
    · simp only [h, if_true]
      have := ih (attempt + 1)
      omega
    · simp [h]

lemma le_finalIdx (fetch : Nat → HttpResponse) :
    ∀ retries attempt, attempt ≤ finalIdx fetch attempt retries := by
  intro retries
  induction retries with
  | zero => intro attempt; simp [finalIdx]
  | succ n ih =>
    intro attempt
    simp only [finalIdx]
    by_cases h : (fetch attempt).status = 503
    · simp only [h, if_true]
      have := ih (attempt + 1)
      omega
    · simp [h]

lemma requestAttempts_eq (fetch : Nat → HttpResponse) :
    ∀ retries attempt,
      requestAttempts fetch attempt retries = finalIdx fetch attempt retries - attempt + 1 := by
  intro retries
  induction retries with
  | zero => intro attempt; simp [requestAttempts, finalIdx]
  | succ n ih =>
    intro attempt
    simp only [requestAttempts, finalIdx]
    by_cases h : (fetch attempt).status = 503
    · simp only [h, if_true]
      rw [ih (attempt + 1)]
      have h1 := le_finalIdx fetch n (attempt + 1)
      omega
    · simp [h]

-- ── Plan / Step status storage (Supabase schema CHECK constraints) ──

/-- Allowed `plans.status` values, from the migration in
`Chat Interface Design/src/App.tsx`:
`CHECK (status IN ('draft', 'confirmed', 'executing', 'completed', 'cancelled'))`. -/
def planStatusValues : List String :=
  ["draft", "confirmed", "executing", "completed", "cancelled"]

/-- Allowed `plan_steps.status` values:
`CHECK (status IN ('pending', 'searching', 'found', 'booked', 'failed', 'skipped'))`. -/
def stepStatusValues : List String :=
  ["pending", "searching", "found", "booked", "failed", "skipped"]

/-- The only error the store can raise on a status write: a CHECK violation. -/
inductive DbError
  | checkViolation
deriving DecidableEq, Repr

/-- A status write against `plans`: the CHECK constraint only tests membership
of the new value; the current stored status is never consulted.  Returns the
stored status after the write. -/
def writePlanStatus (_current newStatus : String) : Except DbError String :=
  if newStatus ∈ planStatusValues then Except.ok newStatus
  else Except.error DbError.checkViolation

/-- A status write against `plan_steps`, validated the same way. -/
def writeStepStatus (_current newStatus : String) : Except DbError String :=
  if newStatus ∈ stepStatusValues then Except.ok newStatus
  else Except.error DbError.checkViolation

/-- Embeds `markItineraryCompleted` from the chat screen:
`supabase.from("plans").update({ status: "completed" }).eq("id", itineraryId)` —
an unconditional write of `completed`, whatever the current status. -/
def markItineraryCompleted (currentStatus : String) : Except DbError String :=
  writePlanStatus currentStatus "completed"

/-- The Plan state-machine validation table of spec section 4.2, stated from
the claim for comparison with the code: draft → confirmed/cancelled,
confirmed → executing/cancelled, executing → completed/cancelled. -/
def specPlanTransitionAllowed (f t : String) : Bool :=
  (f = "draft" && (t = "confirmed" || t = "cancelled")) ||
  (f = "confirmed" && (t = "executing" || t = "cancelled")) ||
  (f = "executing" && (t = "completed" || t = "cancelled"))

/-- The Plan Step state-machine validation table of spec section 4.2, stated
from the claim for comparison with the code; `booked` and `skipped` are
terminal. -/
def specStepTransitionAllowed (f t : String) : Bool :=
  (f = "pending" && (t = "searching" || t = "skipped")) ||
  (f = "searching" && (t = "found" || t = "failed")) ||
  (f = "found" && (t = "booked" || t = "skipped")) ||
  (f = "failed" && (t = "searching" || t = "skipped"))

-- ── Sample responses used by closed witnesses ──

def resp503 : HttpResponse :=
  { status := 503, body := some { detail := some "Service Unavailable" },
    statusText := "Service Unavailable" }

def resp200 : HttpResponse :=
  { status := 200, body := some { detail := none }, statusText := "OK" }

def resp500 : HttpResponse :=
  { status := 500, body := some { detail := some "boom" },
    statusText := "Internal Server Error" }

/-- A backend that answers 503 to the first attempt and 200 afterwards
(the cold-start scenario). -/
def sampleColdStart : Nat → HttpResponse :=
  fun k => if k = 0 then resp503 else resp200

-- ── Claim C1 ──

/-- C1, counterexample: the stored status is validated only by the CHECK
constraints, so transitions outside the section-4.2 tables succeed and change
the stored status instead of being rejected with an `InvalidTransition` error:
`markItineraryCompleted` moves a `draft` Plan to `completed`, a direct
`draft → executing` write succeeds, and a `booked` Step accepts a status
write back to `pending`. -/
theorem c1_counterexample :
    markItineraryCompleted "draft" = Except.ok "completed" ∧
    specPlanTransitionAllowed "draft" "completed" = false ∧
    writePlanStatus "draft" "executing" = Except.ok "executing" ∧
    specPlanTransitionAllowed "draft" "executing" = false ∧
    writeStepStatus "booked" "pending" = Except.ok "pending" ∧
    specStepTransitionAllowed "booked" "pending" = false := by
  refine ⟨rfl, rfl, rfl, rfl, rfl, rfl⟩

/-- C1, amended: a Plan or Step status write is validated only against the
allowed value sets of the CHECK constraints — it succeeds if and only if the
new value is in the corresponding list, regardless of the current status; in
particular `markItineraryCompleted` always stores `completed`.  No
`InvalidTransition` error exists in the store. -/
theorem c1_status_writes_check_membership_only (cur newStatus : String) :
    (writePlanStatus cur newStatus = Except.ok newStatus ↔ newStatus ∈ planStatusValues) ∧
    (writeStepStatus cur newStatus = Except.ok newStatus ↔ newStatus ∈ stepStatusValues) ∧
    markItineraryCompleted cur = Except.ok "completed" := by
  refine ⟨?_, ?_, rfl⟩
  · by_cases h : newStatus ∈ planStatusValues <;> simp [writePlanStatus, h]
  · by_cases h : newStatus ∈ stepStatusValues <;> simp [writeStepStatus, h]

-- ── Claim C2 ──

/-- C2, counterexample: with the source default `retries = 2`, a persistently
unavailable backend is fetched three times — the identical request is retried
twice, not exactly once. -/
theorem c2_counterexample :
    requestAttempts (fun _ => resp503) 0 defaultRetries = 3 ∧ (3 : Nat) ≠ 2 := by
  refine ⟨rfl, by decide⟩

/-- C2, amended: on "service temporarily unavailable" (503) responses the
gateway retries the identical request up to `retries` more times (default
`retries = 2`, so up to twice), each retry after a fixed delay, before
surfacing failure: the number of fetches never exceeds `retries + 1`, and
on an all-503 backend the default budget makes exactly three fetches and then
surfaces the 503 as an error. -/
theorem c2_retry_up_to_budget :
    (∀ (fetch : Nat → HttpResponse) (attempt retries : Nat),
        requestAttempts fetch attempt retries ≤ retries + 1) ∧
    (∀ fetch : Nat → HttpResponse, (∀ k, (fetch k).status = 503) →
        requestAttempts fetch 0 defaultRetries = 3 ∧
        request fetch 0 defaultRetries = Except.error (mkGatewayError (fetch 2))) := by
  constructor
  · intro fetch attempt retries
    rw [requestAttempts_eq]
    have h1 := finalIdx_le fetch retries attempt
    have h2 := le_finalIdx fetch retries attempt
    omega
  · intro fetch h
    have hok : ∀ k, respOk (fetch k) = false := by
      intro k
      simp [respOk, h k]
    constructor
    · simp [requestAttempts, defaultRetries, h]
    · simp [request, defaultRetries, h, hok]

/-- Witness for C2-amended at a concrete all-503 backend. -/
theorem c2_retry_up_to_budget_witness :
    requestAttempts (fun _ => resp503) 0 defaultRetries = 3 ∧
    request (fun _ => resp503) 0 defaultRetries =
      Except.error (mkGatewayError resp503) :=
  c2_retry_up_to_budget.2 (fun _ => resp503) (fun _ => rfl)

-- ── Claim C5 ──

/-- C5: a single 503 answered by a success on the retry yields exactly one
successful result at the caller — `request` returns `Except.ok` with the
successful body and throws no error. -/
theorem c5_cold_start_retry_succeeds (fetch : Nat → HttpResponse)
    (h0 : (fetch 0).status = 503) (h1 : respOk (fetch 1) = true) :
    apiRequest fetch = Except.ok (fetch 1).body := by
  have hne : ((fetch 1).status = 503) = False := by
    simp only [respOk, Bool.and_eq_true, decide_eq_true_eq] at h1
    simp only [eq_iff_iff, iff_false]
    omega
  simp [apiRequest, defaultRetries, request, h0, hne, h1]

/-- Witness for C5 at the concrete cold-start backend. -/
theorem c5_cold_start_retry_succeeds_witness :
    apiRequest sampleColdStart = Except.ok resp200.body :=
  c5_cold_start_retry_succeeds sampleColdStart rfl rfl

-- ── Claim C7 ──

/-- C7: every gateway call builds its headers from the current session —
`Authorization: Bearer <token>` is attached exactly when a non-empty access
token exists — and the fetch is issued regardless: with no credential the
request still goes out (identically to `request` itself) rather than failing
client-side. -/
theorem c7_auth_headers (session : Option Session) (fetch : Nat → HttpResponse) :
    requestWithAuth session fetch = request fetch 0 defaultRetries ∧
    (hasCredential session = true →
      ∃ tok, session = some ⟨some tok⟩ ∧ tok ≠ "" ∧
        getAuthHeaders session =
          [("Content-Type", "application/json"), ("Authorization", "Bearer " ++ tok)]) ∧
    (hasCredential session = false →
      getAuthHeaders session = [("Content-Type", "application/json")]) := by
  refine ⟨rfl, ?_, ?_⟩
  · intro h
    match session with
    | none => simp [hasCredential] at h
    | some s =>
      match hs : s.access_token with
      | none => simp [hasCredential, hs] at h
      | some tok =>
        refine ⟨tok, ?_, ?_, ?_⟩
        · cases s
          simp at hs
          rw [hs]
        · simp [hasCredential, hs] at h
          exact h
        · have hne : ¬(tok = "") := by
            simp [hasCredential, hs] at h
            exact h
          simp [getAuthHeaders, hs, hne]
  · intro h
    match session with
    | none => simp [getAuthHeaders]
    | some s =>
      match hs : s.access_token with
      | none => simp [getAuthHeaders, hs]
      | some tok =>
        have he : tok = "" := by
          simp [hasCredential, hs] at h
          exact h
        simp [getAuthHeaders, hs, he]

/-- Witness for C7: an authenticated session attaches the bearer header, a
missing session still issues the identical request with base headers only. -/
theorem c7_auth_headers_witness :
    requestWithAuth none sampleColdStart = request sampleColdStart 0 defaultRetries ∧
    getAuthHeaders none = [("Content-Type", "application/json")] ∧
    requestWithAuth (some ⟨some "tok"⟩) sampleColdStart =
      request sampleColdStart 0 defaultRetries := by
  refine ⟨(c7_auth_headers none sampleColdStart).1,
          (c7_auth_headers none sampleColdStart).2.2 rfl,
          (c7_auth_headers (some ⟨some "tok"⟩) sampleColdStart).1⟩

-- ── Itinerary data model (ItineraryCard.tsx interfaces, Supabase rows) ──

/-- JavaScript `a || b` on an optional string: an absent or empty string is
falsy and falls through to `b`. -/
def jsOr (a : Option String) (b : String) : String :=
  match a with
  | some s => if s = "" then b else s
  | none => b

/-- The parsed `location` jsonb: `{ name: string; address?: string }`. -/
structure LocationData where
  name : String
  address : Option String
deriving DecidableEq, Repr

/-- Embeds `ItineraryStepData` from `ItineraryCard.tsx`. -/
structure ItineraryStepData where
  id : String
  order : Int
  type : String
  title : String
  description : Option String
  date : String
  start_time : Option String
  end_time : Option String
  location : Option LocationData
  agent : String
  estimated_price_usd : Rat
  notes : Option String
deriving DecidableEq, Repr

/-- Embeds `ItineraryData` from `ItineraryCard.tsx`. -/
structure ItineraryData where
  id : String
  title : String
  destination : String
  start_date : String
  end_date : String
  estimated_total_usd : Rat
  steps : List ItineraryStepData
  status : Option String
deriving DecidableEq, Repr

/-- A raw `plan_steps` row, restricted to the columns the projections read. -/
structure StepRow where
  id : String
  step_order : Int
  step_type : Option String
  category : Option String
  title : String
  description : Option String
  date : Option String
  start_time : Option String
  end_time : Option String
  location : Option LocationData
  agent : Option String
  estimated_price_usd : Option Rat
  notes : Option String
deriving DecidableEq, Repr

/-- A raw `plans` row, restricted to the columns the projections read. -/
structure PlanRow where
  id : String
  title : String
  destination : Option String
  start_date : Option String
  end_date : Option String
  estimated_total_usd : Option Rat
  status : Option String
deriving DecidableEq, Repr

/-- The per-step mapping shared verbatim by `fetchLatestItinerary` (chat) and
`handleTripPress` (dashboard): fallback chains via `||`, `order: s.step_order`,
`parseFloat(s.estimated_price_usd || "0")` modelled as `getD 0`. -/
def stepRowToData (planStartDate : Option String) (s : StepRow) : ItineraryStepData :=
  { id := s.id,
    order := s.step_order,
    type := jsOr s.step_type (jsOr s.category "activity"),
    title := s.title,
    description := s.description,
    date := jsOr s.date (jsOr planStartDate ""),
    start_time := s.start_time,
    end_time := s.end_time,
    location := s.location,
    agent := jsOr s.agent "unknown_agent",
    estimated_price_usd := s.estimated_price_usd.getD 0,
    notes := s.notes }

/-- The Supabase query modifier `.order("step_order", { ascending: true })`:
the store hands back the rows sorted by `step_order`, whatever their storage
or retrieval order. -/
def orderByStepOrder (rows : List StepRow) : List StepRow :=
  rows.mergeSort (fun a b => decide (a.step_order ≤ b.step_order))

/-- Embeds `fetchLatestItinerary` from the chat screen, applied to the latest plan
row and its step rows (the network reads are factored out as arguments). -/
def fetchLatestItinerary (plan : PlanRow) (rows : List StepRow) : ItineraryData :=
  { id := plan.id,
    title := plan.title,
    destination := jsOr plan.destination "",
    start_date := jsOr plan.start_date "",
    end_date := jsOr plan.end_date "",
    estimated_total_usd := plan.estimated_total_usd.getD 0,
    steps := (orderByStepOrder rows).map (stepRowToData plan.start_date),
    status := some (jsOr plan.status "draft") }

/-- The trip summary built by `fetchTrips` on the dashboard. -/
structure TripSummary where
  id : String
  title : String
  destination : String
  start_date : String
  end_date : String
  estimated_total_usd : Rat
  status : String
deriving DecidableEq, Repr

/-- The expanded-trip projection built by `handleTripPress` on the dashboard:
same step mapping, steps fetched with `.order("step_order", { ascending: true })`. -/
def handleTripPress (trip : TripSummary) (rows : List StepRow) : ItineraryData :=
  { id := trip.id,
    title := trip.title,
    destination := trip.destination,
    start_date := trip.start_date,
    end_date := trip.end_date,
    estimated_total_usd := trip.estimated_total_usd,
    steps := (orderByStepOrder rows).map (stepRowToData (some trip.start_date)),
    status := some trip.status }

-- ── Claim C8 ──

lemma sorted_orderByStepOrder (rows : List StepRow) :
    List.Pairwise (fun a b : StepRow => a.step_order ≤ b.step_order)
      (orderByStepOrder rows) := by
  have h := @List.sorted_mergeSort StepRow
    (fun a b : StepRow => decide (a.step_order ≤ b.step_order))
    (fun a b c hab hbc => by
      simp only [decide_eq_true_eq] at hab hbc ⊢
      omega)
    (fun a b => by
      simp only [Bool.or_eq_true, decide_eq_true_eq]
      omega)
    rows
  exact h.imp (fun hab => by simpa using hab)

lemma perm_orderByStepOrder (rows : List StepRow) :
    (orderByStepOrder rows).Perm rows :=
  List.mergeSort_perm rows _

/-- C8: both presentation projections list the Plan steps sorted ascending by
the explicit `step_order` column (surfaced as the `order` field), and the
steps are exactly the mapped step rows up to that reordering — the order comes
from the sort, not from storage or retrieval order. -/
theorem c8_projections_sorted_by_step_order
    (plan : PlanRow) (trip : TripSummary) (rows : List StepRow) :
    List.Pairwise (fun a b : ItineraryStepData => a.order ≤ b.order)
      (fetchLatestItinerary plan rows).steps ∧
    (fetchLatestItinerary plan rows).steps.Perm
      (rows.map (stepRowToData plan.start_date)) ∧
    List.Pairwise (fun a b : ItineraryStepData => a.order ≤ b.order)
      (handleTripPress trip rows).steps ∧
    (handleTripPress trip rows).steps.Perm
      (rows.map (stepRowToData (some trip.start_date))) := by
  refine ⟨?_, ?_, ?_, ?_⟩
  · exact (sorted_orderByStepOrder rows).map _ (fun a b hab => hab)
  · exact (perm_orderByStepOrder rows).map _
  · exact (sorted_orderByStepOrder rows).map _ (fun a b hab => hab)
  · exact (perm_orderByStepOrder rows).map _

-- ── Chat screen (`handleSend` success and catch continuations) ──

/-- A raw entry of `res.tool_trace` as sent by the backend. -/
structure RawTrace where
  tool : String
  status : Option String
deriving DecidableEq, Repr

/-- A `ToolTrace` after the mapping in `handleSend`. -/
structure ToolTrace where
  tool : String
  status : String
deriving DecidableEq, Repr

/-- The mapping `{ tool: t.tool, status: t.status || "ok" }` (`latency_ms` is carried
through unchanged and not modelled). -/
def mapTrace (t : RawTrace) : ToolTrace :=
  { tool := t.tool, status := jsOr t.status "ok" }

/-- The body of the `/chat/send` response read by `handleSend`. -/
structure ChatResponse where
  reply : Option String
  conversation_id : Option String
  tool_trace : Option (List RawTrace)
deriving DecidableEq, Repr

/-- A `ChatMessage` of the chat screen. -/
structure ChatMessage where
  id : String
  role : String
  content : String
  toolTrace : Option (List ToolTrace)
  itinerary : Option ItineraryData
  showExecution : Bool
deriving DecidableEq, Repr

/-- The chat screen state touched by `handleSend`. -/
structure ChatState where
  messages : List ChatMessage
  currentItinerary : Option ItineraryData
  sending : Bool
  conversationId : Option String
deriving DecidableEq, Repr

structure HandleSendOutcome where
  state : ChatState
  /-- whether `fetchLatestItinerary()` was called in this turn -/
  loadAttempted : Bool
deriving DecidableEq, Repr

/-- The success path of `handleSend` after `await api.post("/chat/send", …)`:
`fetched` is what `fetchLatestItinerary()` would return from storage (it is
consulted only when the trace check fires, which `loadAttempted` records).
`st.currentItinerary` in the execute branch is the closure value from the
render, i.e. the pre-turn value. -/
def handleSendSuccess (st : ChatState) (res : ChatResponse)
    (fetched : Option ItineraryData) (msgId : String) : HandleSendOutcome :=
  let convId := match res.conversation_id with
    | some c => if c = "" then st.conversationId else some c
    | none => st.conversationId
  let toolTraces := (res.tool_trace.getD []).map mapTrace
  let hasItineraryGenerate := toolTraces.any (fun t => t.tool == "itinerary_generate")
  let hasItineraryExecute := toolTraces.any (fun t => t.tool == "itinerary_execute")
  let assistantMsg0 : ChatMessage :=
    { id := msgId, role := "assistant", content := jsOr res.reply "",
      toolTrace := if toolTraces.length > 0 then some toolTraces else none,
      itinerary := none, showExecution := false }
  let genResult : Option ItineraryData :=
    if hasItineraryGenerate then fetched else none
  let assistantMsg1 := match genResult with
    | some it => { assistantMsg0 with itinerary := some it }
    | none => assistantMsg0
  let newCurrent := match genResult with
    | some it => some it
    | none => st.currentItinerary
  let assistantMsg2 := match st.currentItinerary with
    | some cur =>
      if hasItineraryExecute then
        { assistantMsg1 with showExecution := true, itinerary := some cur }
      else assistantMsg1
    | none => assistantMsg1
  { state := { messages := st.messages ++ [assistantMsg2],
               currentItinerary := newCurrent,
               sending := false,
               conversationId := convId },
    loadAttempted := hasItineraryGenerate }

/-- The `err?.status === 401` branch message of the `catch` in `handleSend`. -/
def reAuthMessage : String :=
  "I couldn\x27t verify your session. Please sign out and sign back in."

/-- The generic fallback message of the `catch` in `handleSend`. -/
def genericFailureMessage : String :=
  "I\x27m having trouble connecting to the server. Please make sure the backend is running and try again."

/-- The `catch` branch of `handleSend`: append the fallback assistant message
chosen by the error status and stop the spinner; nothing else changes. -/
def handleSendCatch (st : ChatState) (e : GatewayError) (nowId : String) : ChatState :=
  let errorMsg : ChatMessage :=
    { id := nowId ++ "-err", role := "assistant",
      content := if e.status = 401 then reAuthMessage else genericFailureMessage,
      toolTrace := none, itinerary := none, showExecution := false }
  { st with messages := st.messages ++ [errorMsg], sending := false }

-- ── Claim C3 ──

def sampleItinerary : ItineraryData :=
  { id := "plan-1", title := "Tokyo Trip", destination := "Tokyo",
    start_date := "2026-01-01", end_date := "2026-01-05",
    estimated_total_usd := 100, steps := [], status := some "draft" }

def c3State : ChatState :=
  { messages := [], currentItinerary := none, sending := true, conversationId := none }

/-- A chat response whose only trace is an itinerary-generation call that
FAILED (`status: "error"`). -/
def c3Response : ChatResponse :=
  { reply := some "done", conversation_id := none,
    tool_trace := some [{ tool := "itinerary_generate", status := some "error" }] }

/-- C3, counterexample: a turn whose sole itinerary-generation record has
status `error` still triggers the load and publishes the fetched itinerary —
the code tests only `t.tool === "itinerary_generate"` and never the record
status, contradicting "a record with status error or pending does not trigger
the load". -/
theorem c3_counterexample :
    (handleSendSuccess c3State c3Response (some sampleItinerary) "m1").loadAttempted = true ∧
    (handleSendSuccess c3State c3Response (some sampleItinerary) "m1").state.currentItinerary
      = some sampleItinerary ∧
    ((c3Response.tool_trace.getD []).map mapTrace).any
      (fun t => t.tool == "itinerary_generate" && t.status == "ok") = false := by
  refine ⟨rfl, rfl, rfl⟩

/-- C3, amended: the itinerary load fires if and only if the turn's mapped
Tool Invocation Records contain an itinerary-generation call of ANY status
(the status — ok, error, or pending — is not inspected; a missing or empty
status merely defaults to ok); when the load runs and returns an itinerary it
is published as the current itinerary, otherwise the current itinerary is
unchanged. -/
theorem c3_load_iff_generate_trace (st : ChatState) (res : ChatResponse)
    (fetched : Option ItineraryData) (msgId : String) :
    (handleSendSuccess st res fetched msgId).loadAttempted
      = ((res.tool_trace.getD []).map mapTrace).any (fun t => t.tool == "itinerary_generate") ∧
    ((handleSendSuccess st res fetched msgId).loadAttempted = false →
      (handleSendSuccess st res fetched msgId).state.currentItinerary = st.currentItinerary) ∧
    ((handleSendSuccess st res fetched msgId).loadAttempted = true →
      (handleSendSuccess st res fetched msgId).state.currentItinerary
        = match fetched with
          | some it => some it
          | none => st.currentItinerary) := by
  refine ⟨rfl, ?_, ?_⟩
  · intro h
    simp only [handleSendSuccess] at h ⊢
    rw [h]
    cases fetched <;> rfl
  · intro h
    simp only [handleSendSuccess] at h ⊢
    rw [h]
    cases fetched <;> rfl

/-- Witness for C3-amended: with a generation trace present and a stored
itinerary available, the turn publishes it. -/
theorem c3_load_iff_generate_trace_witness :
    (handleSendSuccess c3State c3Response (some sampleItinerary) "m1").state.currentItinerary
      = some sampleItinerary :=
  (c3_load_iff_generate_trace c3State c3Response (some sampleItinerary) "m1").2.2 (by rfl)

-- ── Claim C6 ──

/-- C6: whenever the gateway settles on a non-2xx response, `request` throws a
`GatewayError` carrying that response's HTTP status and the backend `detail`
message (when one is provided); the chat `catch` branch maps status 401 to the
re-authentication prompt and every other status to the generic failure
message, and leaves the current itinerary (the Plan state it holds) untouched. -/
theorem c6_non2xx_throws_and_chat_branches (fetch : Nat → HttpResponse)
    (attempt retries : Nat) (st : ChatState) (nowId : String)
    (hfail : respOk (fetch (finalIdx fetch attempt retries)) = false) :
    ∃ e, request fetch attempt retries = Except.error e ∧
      e.status = (fetch (finalIdx fetch attempt retries)).status ∧
      (∀ d, (errBody (fetch (finalIdx fetch attempt retries))).detail = some d → d ≠ "" →
        e.message = d) ∧
      (handleSendCatch st e nowId).currentItinerary = st.currentItinerary ∧
      (e.status = 401 →
        (handleSendCatch st e nowId).messages = st.messages ++
          [{ id := nowId ++ "-err", role := "assistant", content := reAuthMessage,
             toolTrace := none, itinerary := none, showExecution := false }]) ∧
      (e.status ≠ 401 →
        (handleSendCatch st e nowId).messages = st.messages ++
          [{ id := nowId ++ "-err", role := "assistant", content := genericFailureMessage,
             toolTrace := none, itinerary := none, showExecution := false }]) := by
  refine ⟨mkGatewayError (fetch (finalIdx fetch attempt retries)), ?_, rfl, ?_, rfl, ?_, ?_⟩
  · rw [request_eq_final]
    simp [hfail]
  · intro d hd hne
    simp only [mkGatewayError, errMessage, hd]
    simp [hne]
  · intro h401
    simp [handleSendCatch, h401]
  · intro h401
    simp [handleSendCatch, h401]

/-- Witness for C6 at a concrete backend that answers 500 with a detail. -/
theorem c6_non2xx_throws_witness :
    ∃ e, request (fun _ => resp500) 0 defaultRetries = Except.error e ∧
      e.status = 500 ∧ e.message = "boom" := by
  obtain ⟨e, h1, h2, h3, -, -, -⟩ :=
    c6_non2xx_throws_and_chat_branches (fun _ => resp500) 0 defaultRetries
      ⟨[], none, false, none⟩ "t" (by rfl)
  exact ⟨e, h1, by rw [h2]; rfl, h3 "boom" rfl (by decide)⟩

-- ── Claim C4 (aggregate total — backend aggregation modelled from the spec) ──

/-- Modelled from the spec: a Plan Step as the backend Orchestration Engine
holds it — the engine that writes `estimated_price_usd` / `estimated_total_usd`
is not under `src/` (only the stored columns and their frontend readers are),
so its aggregation is modelled from the spec section 5: the Plan aggregate is
"recomputed, not incrementally mutated, after each Step settles". -/
structure EngineStep where
  id : String
  estimated_price : Rat
deriving DecidableEq, Repr

/-- Modelled from the spec: a Plan with its Steps and stored aggregate total
as held by the missing backend engine. -/
structure EnginePlan where
  steps : List EngineStep
  estimated_total : Rat
deriving DecidableEq, Repr

/-- Modelled from the spec: the full recompute of the aggregate —
`sum(step.estimated_price for step in plan.steps)`. -/
def recomputeTotal (p : EnginePlan) : EnginePlan :=
  { p with estimated_total := (p.steps.map EngineStep.estimated_price).sum }

/-- Modelled from the spec: a Step price change, followed by the recompute the
spec mandates on every such change. -/
def setStepPrice (p : EnginePlan) (sid : String) (v : Rat) : EnginePlan :=
  recomputeTotal
    { p with steps := p.steps.map (fun s =>
        if s.id = sid then { s with estimated_price := v } else s) }

/-- Modelled from the spec: a Step joining the Plan, followed by the recompute. -/
def addStep (p : EnginePlan) (s : EngineStep) : EnginePlan :=
  recomputeTotal { p with steps := p.steps ++ [s] }

/-- Modelled from the spec: a Step leaving the Plan, followed by the recompute. -/
def removeStep (p : EnginePlan) (sid : String) : EnginePlan :=
  recomputeTotal { p with steps := p.steps.filter (fun s => !(s.id = sid)) }

/-- The claimed invariant: the stored aggregate equals the sum of the Step
prices. -/
def totalInvariant (p : EnginePlan) : Prop :=
  p.estimated_total = (p.steps.map EngineStep.estimated_price).sum

/-- C4: immediately after any Step price change or any change of Step
membership, the stored aggregate estimated total equals the sum of the Steps'
estimated prices (each mutator ends in the full recompute). -/
theorem c4_total_recomputed_on_every_change
    (p : EnginePlan) (sid : String) (v : Rat) (s : EngineStep) :
    totalInvariant (setStepPrice p sid v) ∧
    totalInvariant (addStep p s) ∧
    totalInvariant (removeStep p sid) := by
  refine ⟨rfl, rfl, rfl⟩

-- ── Claim C10 (Composer) ──

/-- JavaScript `String.prototype.trim`: strip leading and trailing whitespace
characters.  (Embedded over the character list so it computes; Lean's own
`String.trim` is definitionally opaque.) -/
def jsTrim (s : String) : String :=
  String.mk (((s.data.dropWhile Char.isWhitespace).reverse.dropWhile
    Char.isWhitespace).reverse)

/-- Embeds `handleSend` of `Composer.tsx`: trim the input, bail out on an empty
result, otherwise hand the trimmed text to `onSend` and clear the field.  The
returned option is the argument passed to `onSend` (`none`: no send). -/
def composerHandleSend (text : String) : Option String :=
  let trimmed := jsTrim text
  if trimmed = "" then none
  else some trimmed

/-- C10: the Composer invokes `onSend` only with the trimmed input and only
when that trimmed text is non-empty; empty or whitespace-only input sends
nothing. -/
theorem c10_composer_sends_trimmed_nonempty (text : String) :
    (∀ sent, composerHandleSend text = some sent → sent = jsTrim text ∧ sent ≠ "") ∧
    (jsTrim text = "" → composerHandleSend text = none) := by
  constructor
  · intro sent hsent
    by_cases h : jsTrim text = ""
    · simp [composerHandleSend, h] at hsent
    · simp [composerHandleSend, h] at hsent
      refine ⟨hsent.symm, ?_⟩
      rw [← hsent]
      exact h
  · intro h
    simp [composerHandleSend, h]

/-- Witness for C10: a padded message is sent trimmed, whitespace-only input
is not sent. -/
theorem c10_composer_witness :
    ("hi" = jsTrim "  hi  " ∧ "hi" ≠ "") ∧ composerHandleSend "   " = none := by
  constructor
  · exact (c10_composer_sends_trimmed_nonempty "  hi  ").1 "hi" (by decide)
  · exact (c10_composer_sends_trimmed_nonempty "   ").2 (by decide)

-- ── ExecutionAnimation (`runSequence`) ──

/-- A step status of `ExecutionAnimation`: `"waiting" | "processing" | "done"`. -/
inductive StepExecStatus
  | waiting
  | processing
  | done
deriving DecidableEq, Repr

/-- Progress order of the three statuses. -/
def StepExecStatus.rank : StepExecStatus → Nat
  | .waiting => 0
  | .processing => 1
  | .done => 2

/-- The loop body of `runSequence` for the iterations `i, i+1, …`: each
iteration first publishes the states with step `i` set to `processing`
(`setStepStates([...states])`), then publishes them again with step `i` set
to `done`.  The fuel counts the remaining iterations; the list collects the
published snapshots in order. -/
def runSequenceAux (states : List StepExecStatus) (i : Nat) :
    Nat → List (List StepExecStatus)
  | 0 => []
  | d + 1 =>
    let s1 := states.set i StepExecStatus.processing
    let s2 := s1.set i StepExecStatus.done
    s1 :: s2 :: runSequenceAux s2 (i + 1) d

/-- Embeds `runSequence`: the loop runs `i` from `0` to `states.length - 1`. -/
def runSequence (states : List StepExecStatus) : List (List StepExecStatus) :=
  runSequenceAux states 0 states.length

/-- The full published history of the animation for `n` steps, starting from
the initial all-`waiting` array built by the effect. -/
def executionTrace (n : Nat) : List (List StepExecStatus) :=
  let init := List.replicate n StepExecStatus.waiting
  init :: runSequence init

/-- Observable events of the component: a published snapshot, or the
`onComplete` callback firing. -/
inductive ExecEvent
  | snap (states : List StepExecStatus)
  | complete
deriving DecidableEq, Repr

def ExecEvent.isComplete : ExecEvent → Bool
  | .complete => true
  | .snap _ => false

/-- The tail of `runSequence`: `if (!doneRef.current) { doneRef.current = true;
onComplete?.(); }` — the callback fires only when the guard is still clear. -/
def fireOnComplete (doneRef : Bool) : List ExecEvent :=
  if doneRef then [] else [ExecEvent.complete]

/-- Full event history: every snapshot, then the guarded `onComplete`
(`doneRef` starts `false`). -/
def executionEvents (n : Nat) : List ExecEvent :=
  (executionTrace n).map ExecEvent.snap ++ fireOnComplete false

-- Closed-form snapshot shapes (length n; used to characterise the trace).

/-- Steps `0..i-1` done, the rest waiting. -/
def doneTo : Nat → Nat → List StepExecStatus
  | 0, _ => []
  | n + 1, 0 => StepExecStatus.waiting :: doneTo n 0
  | n + 1, i + 1 => StepExecStatus.done :: doneTo n i

/-- Steps `0..i-1` done, step `i` processing, the rest waiting. -/
def procAt : Nat → Nat → List StepExecStatus
  | 0, _ => []
  | n + 1, 0 => StepExecStatus.processing :: doneTo n 0
  | n + 1, i + 1 => StepExecStatus.done :: procAt n i

/-- Closed form of `runSequenceAux` from the state `doneTo n i`. -/
def seqTailAux (n i : Nat) : Nat → List (List StepExecStatus)
  | 0 => []
  | d + 1 => procAt n i :: doneTo n (i + 1) :: seqTailAux n (i + 1) d

lemma length_doneTo : ∀ n i, (doneTo n i).length = n := by
  intro n
  induction n with
  | zero => intro i; cases i <;> rfl
  | succ m ih => intro i; cases i <;> simp [doneTo, ih]

lemma length_procAt : ∀ n i, (procAt n i).length = n := by
  intro n
  induction n with
  | zero => intro i; cases i <;> rfl
  | succ m ih =>
    intro i
    cases i with
    | zero => simp [procAt, length_doneTo]
    | succ k => simp [procAt, ih]

lemma replicate_waiting : ∀ n, List.replicate n StepExecStatus.waiting = doneTo n 0 := by
  intro n
  induction n with
  | zero => rfl
  | succ m ih => simp [List.replicate, doneTo, ih]

lemma doneTo_set_processing : ∀ n i, i < n →
    (doneTo n i).set i StepExecStatus.processing = procAt n i := by
  intro n
  induction n with
  | zero => intro i h; omega
  | succ m ih =>
    intro i h
    cases i with
    | zero => simp [doneTo, procAt, List.set]
    | succ k => simp [doneTo, procAt, List.set, ih k (by omega)]

lemma procAt_set_done : ∀ n i, i < n →
    (procAt n i).set i StepExecStatus.done = doneTo n (i + 1) := by
  intro n
  induction n with
  | zero => intro i h; omega
  | succ m ih =>
    intro i h
    cases i with
    | zero => simp [doneTo, procAt, List.set]
    | succ k => simp [doneTo, procAt, List.set, ih k (by omega)]

lemma getD_doneTo : ∀ n i j,
    (doneTo n i).getD j StepExecStatus.waiting =
      if j < i ∧ j < n then StepExecStatus.done else StepExecStatus.waiting := by
  intro n
  induction n with
  | zero =>
    intro i j
    rw [if_neg (by omega)]
    cases i <;> rfl
  | succ m ih =>
    intro i j
    cases i with
    | zero =>
      rw [if_neg (by omega)]
      cases j with
      | zero => rfl
      | succ l =>
        show (doneTo m 0).getD l StepExecStatus.waiting = StepExecStatus.waiting
        rw [ih 0 l, if_neg (by omega)]
    | succ k =>
      cases j with
      | zero =>
        rw [if_pos (by omega)]
        rfl
      | succ l =>
        show (doneTo m k).getD l StepExecStatus.waiting = _
        rw [ih k l]
        by_cases h : l < k ∧ l < m
        · rw [if_pos h, if_pos (by omega)]
        · rw [if_neg h, if_neg (by omega)]

lemma getD_procAt : ∀ n i j,
    (procAt n i).getD j StepExecStatus.waiting =
      if j < n then
        (if j < i then StepExecStatus.done
         else if j = i then StepExecStatus.processing
         else StepExecStatus.waiting)
      else StepExecStatus.waiting := by
  intro n
  induction n with
  | zero =>
    intro i j
    rw [if_neg (by omega)]
    cases i <;> rfl
  | succ m ih =>
    intro i j
    cases i with
    | zero =>
      cases j with
      | zero =>
        rw [if_pos (by omega), if_neg (by omega), if_pos rfl]
        rfl
      | succ l =>
        show (doneTo m 0).getD l StepExecStatus.waiting = _
        rw [getD_doneTo m 0 l, if_neg (by omega)]
        by_cases h : l + 1 < m + 1
        · rw [if_pos h, if_neg (by omega), if_neg (by omega)]
        · rw [if_neg h]
    | succ k =>
      cases j with
      | zero =>
        rw [if_pos (by omega), if_pos (by omega)]
        rfl
      | succ l =>
        show (procAt m k).getD l StepExecStatus.waiting = _
        rw [ih k l]
        by_cases h : l < m
        · rw [if_pos h]
          by_cases h1 : l < k
          · rw [if_pos h1, if_pos (by omega : l + 1 < m + 1),
                if_pos (by omega : l + 1 < k + 1)]
          · by_cases h2 : l = k
            · rw [if_neg h1, if_pos h2, if_pos (by omega : l + 1 < m + 1),
                  if_neg (by omega : ¬(l + 1 < k + 1)),
                  if_pos (by omega : l + 1 = k + 1)]
            · rw [if_neg h1, if_neg h2, if_pos (by omega : l + 1 < m + 1),
                  if_neg (by omega : ¬(l + 1 < k + 1)),
                  if_neg (by omega : ¬(l + 1 = k + 1))]
        · rw [if_neg h, if_neg (by omega : ¬(l + 1 < m + 1))]

lemma runSequenceAux_doneTo : ∀ d n i, n = i + d →
    runSequenceAux (doneTo n i) i d = seqTailAux n i d := by
  intro d
  induction d with
  | zero => intro n i h; rfl
  | succ m ih =>
    intro n i h
    show (doneTo n i).set i StepExecStatus.processing ::
        ((doneTo n i).set i StepExecStatus.processing).set i StepExecStatus.done ::
        runSequenceAux (((doneTo n i).set i StepExecStatus.processing).set i
          StepExecStatus.done) (i + 1) m = _
    rw [doneTo_set_processing n i (by omega), procAt_set_done n i (by omega),
        ih n (i + 1) (by omega)]
    rfl

lemma executionTrace_eq (n : Nat) :
    executionTrace n = doneTo n 0 :: seqTailAux n 0 n := by
  show List.replicate n StepExecStatus.waiting ::
      runSequenceAux (List.replicate n StepExecStatus.waiting) 0
        (List.replicate n StepExecStatus.waiting).length = _
  rw [List.length_replicate, replicate_waiting, runSequenceAux_doneTo n n 0 (by omega)]

lemma mem_seqTailAux : ∀ d n i st, st ∈ seqTailAux n i d →
    (∃ k, i ≤ k ∧ k < i + d ∧ st = procAt n k) ∨
    (∃ k, i < k ∧ k ≤ i + d ∧ st = doneTo n k) := by
  intro d
  induction d with
  | zero => intro n i st h; exact absurd h (List.not_mem_nil st)
  | succ m ih =>
    intro n i st h
    rw [show seqTailAux n i (m + 1) =
        procAt n i :: doneTo n (i + 1) :: seqTailAux n (i + 1) m from rfl,
      List.mem_cons, List.mem_cons] at h
    rcases h with h | h | h
    · exact Or.inl ⟨i, by omega, by omega, h⟩
    · exact Or.inr ⟨i + 1, by omega, by omega, h⟩
    · rcases ih n (i + 1) st h with ⟨k, h1, h2, h3⟩ | ⟨k, h1, h2, h3⟩
      · exact Or.inl ⟨k, by omega, by omega, h3⟩
      · exact Or.inr ⟨k, by omega, by omega, h3⟩

/-- One published snapshot to the next: no step moves backwards. -/
def StepMono (s t : List StepExecStatus) : Prop :=
  s.length = t.length ∧
  ∀ j, j < s.length →
    (s.getD j StepExecStatus.waiting).rank ≤ (t.getD j StepExecStatus.waiting).rank

lemma stepMono_doneTo_procAt (n i : Nat) (_h : i < n) :
    StepMono (doneTo n i) (procAt n i) := by
  constructor
  · rw [length_doneTo, length_procAt]
  · intro j hj
    rw [getD_doneTo, getD_procAt]
    by_cases h1 : j < i
    · rw [if_pos ⟨h1, by rw [length_doneTo] at hj; exact hj⟩,
          if_pos (by rw [length_doneTo] at hj; exact hj), if_pos h1]
    · rw [if_neg (by omega)]
      by_cases h2 : j < n
      · rw [if_pos h2, if_neg h1]
        by_cases h3 : j = i
        · rw [if_pos h3]
          exact Nat.zero_le _
        · rw [if_neg h3]
      · rw [if_neg h2]

lemma stepMono_procAt_doneTo (n i : Nat) (_h : i < n) :
    StepMono (procAt n i) (doneTo n (i + 1)) := by
  constructor
  · rw [length_doneTo, length_procAt]
  · intro j hj
    rw [length_procAt] at hj
    rw [getD_doneTo, getD_procAt, if_pos hj]
    by_cases h1 : j < i
    · rw [if_pos h1, if_pos ⟨by omega, hj⟩]
    · rw [if_neg h1]
      by_cases h3 : j = i
      · rw [if_pos h3, if_pos ⟨by omega, hj⟩]
        exact Nat.le_succ 1
      · rw [if_neg h3, if_neg (by omega)]

lemma chain_seqTailAux : ∀ d n i, n = i + d →
    List.Chain' StepMono (doneTo n i :: seqTailAux n i d) := by
  intro d
  induction d with
  | zero => intro n i h; exact List.chain'_singleton _
  | succ m ih =>
    intro n i h
    rw [show seqTailAux n i (m + 1) =
        procAt n i :: doneTo n (i + 1) :: seqTailAux n (i + 1) m from rfl,
      List.chain'_cons, List.chain'_cons]
    exact ⟨stepMono_doneTo_procAt n i (by omega),
           stepMono_procAt_doneTo n i (by omega),
           ih n (i + 1) (by omega)⟩

lemma getLast?_seqTailAux : ∀ d n i, n = i + d →
    (doneTo n i :: seqTailAux n i d).getLast? = some (doneTo n n) := by
  intro d
  induction d with
  | zero =>
    intro n i h
    subst h
    rfl
  | succ m ih =>
    intro n i h
    rw [show seqTailAux n i (m + 1) =
        procAt n i :: doneTo n (i + 1) :: seqTailAux n (i + 1) m from rfl,
      List.getLast?_cons_cons, List.getLast?_cons_cons]
    exact ih n (i + 1) (by omega)

/-- A snapshot respects the sequential order: a step is past `waiting` only
when every earlier step is already `done`. -/
lemma ordered_shape (n : Nat) (st : List StepExecStatus)
    (hm : st ∈ executionTrace n) (j : Nat)
    (hj : st.getD (j + 1) StepExecStatus.waiting ≠ StepExecStatus.waiting) :
    st.getD j StepExecStatus.waiting = StepExecStatus.done := by
  rw [executionTrace_eq, List.mem_cons] at hm
  have hdone : ∀ k, st = doneTo n k →
      st.getD j StepExecStatus.waiting = StepExecStatus.done := by
    intro k hk
    rw [hk] at hj ⊢
    rw [getD_doneTo] at hj ⊢
    by_cases h : j + 1 < k ∧ j + 1 < n
    · rw [if_pos (by omega)]
    · rw [if_neg h] at hj
      exact absurd rfl hj
  rcases hm with hm | hm
  · exact hdone 0 hm
  · rcases mem_seqTailAux n n 0 st hm with ⟨k, -, -, h3⟩ | ⟨k, -, -, h3⟩
    · rw [h3] at hj ⊢
      rw [getD_procAt] at hj ⊢
      by_cases hn : j + 1 < n
      · rw [if_pos hn] at hj
        by_cases h1 : j + 1 < k
        · rw [if_pos (by omega), if_pos (by omega)]
        · by_cases h2 : j + 1 = k
          · rw [if_pos (by omega), if_pos (by omega)]
          · rw [if_neg h1, if_neg h2] at hj
            exact absurd rfl hj
      · rw [if_neg hn] at hj
        exact absurd rfl hj
    · exact hdone k h3

-- ── Claim C9 ──

/-- C9: in the published history of `ExecutionAnimation`, (1) between
consecutive snapshots every step's status only moves forward through
waiting → processing → done; (2) in every snapshot a step is past `waiting`
only when the previous step is already `done` — so steps enter `processing`
in ascending index order and step i is done before step i+1 leaves waiting;
(3) the event history is all snapshots followed by a single `onComplete`;
(4)–(5) the last snapshot has every step `done`, so `onComplete` fires only
after every step reached done; (6) the `doneRef` guard fires the callback at
most once from any guard state, and (7) the full run fires it exactly once. -/
theorem c9_execution_sequential (n : Nat) :
    List.Chain' StepMono (executionTrace n) ∧
    (∀ st ∈ executionTrace n, ∀ j,
      st.getD (j + 1) StepExecStatus.waiting ≠ StepExecStatus.waiting →
      st.getD j StepExecStatus.waiting = StepExecStatus.done) ∧
    executionEvents n = (executionTrace n).map ExecEvent.snap ++ [ExecEvent.complete] ∧
    (executionTrace n).getLast? = some (doneTo n n) ∧
    (∀ j, j < n → (doneTo n n).getD j StepExecStatus.waiting = StepExecStatus.done) ∧
    (∀ r, ((fireOnComplete r).filter ExecEvent.isComplete).length ≤ 1) ∧
    ((executionEvents n).filter ExecEvent.isComplete).length = 1 := by
  have hsnap : ∀ l : List (List StepExecStatus),
      (l.map ExecEvent.snap).filter ExecEvent.isComplete = [] := by
    intro l
    induction l with
    | nil => rfl
    | cons a t ih => simp [ExecEvent.isComplete, ih]
  refine ⟨?_, ?_, rfl, ?_, ?_, ?_, ?_⟩
  · rw [executionTrace_eq]
    exact chain_seqTailAux n n 0 (by omega)
  · intro st hm j hj
    exact ordered_shape n st hm j hj
  · rw [executionTrace_eq]
    exact getLast?_seqTailAux n n 0 (by omega)
  · intro j hj
    rw [getD_doneTo, if_pos ⟨hj, hj⟩]
  · intro r
    cases r <;> simp [fireOnComplete, ExecEvent.isComplete]
  · show (((executionTrace n).map ExecEvent.snap ++ fireOnComplete false).filter
      ExecEvent.isComplete).length = 1
    rw [List.filter_append, hsnap]
    rfl

/-- Witness for C9 at `n = 2`: the run ends with both steps done, and in the
snapshot where step 1 is processing, step 0 is already done. -/
theorem c9_execution_sequential_witness :
    (executionTrace 2).getLast? = some (doneTo 2 2) ∧
    (procAt 2 1).getD 0 StepExecStatus.waiting = StepExecStatus.done := by
  refine ⟨(c9_execution_sequential 2).2.2.2.1, ?_⟩
  exact (c9_execution_sequential 2).2.1 (procAt 2 1) (by decide) 0 (by decide)

